import Mathlib

/-!
# Verification of the CSV profiling engine (`src/csv_analyzer.py`)

Shallow embedding of the profiling core of `analyze_csv`.  Strings are
modelled as `List Char`; a CSV file, after the stdlib `csv` module has
detected the dialect and split it into records, is a `List (List Char)`
per row.  File I/O, dialect sniffing and record splitting live in the
Python standard library and are outside the embedding: `analyze_csv`
below takes the header list and the data-row list that the scanner
yields and mirrors lines 33-81 of the source; the no-header branch of
lines 29-31 is mirrored by `analyze_csv_noheader`.
-/

/-- Strings of the Python program, modelled as lists of characters. -/
abbrev Str := List Char

/-- Characters removed by Python's `str.strip()` (whitespace; modelled as
the ASCII whitespace set). -/
def pyIsSpace (c : Char) : Bool :=
  c = ' ' || c = '\t' || c = '\n' || c = '\r' || c = Char.ofNat 11 || c = Char.ofNat 12

/-- Python `value.strip()`: drop leading and trailing whitespace. -/
def pyStrip (v : Str) : Str :=
  ((v.dropWhile pyIsSpace).reverse.dropWhile pyIsSpace).reverse

/-- Python `s.replace('.', '', 1)`: remove the first `.` character, if any
(source lines 63 and 67). -/
def pyReplaceDotOnce : Str → Str
  | [] => []
  | c :: cs => if c = '.' then cs else c :: pyReplaceDotOnce cs

/-- Python's per-character `isdigit` test also accepts characters beyond
the ASCII decimal digits `0`-`9`: every character whose Unicode
`Numeric_Type` is `Decimal` or `Digit`, such as the superscript `²`.
This models the non-ASCII part of that table by representative blocks
(superscript and subscript digits, Arabic-Indic, extended Arabic-Indic,
Devanagari and fullwidth decimal digits); the remaining blocks are
further non-ASCII digit characters not listed here.  Every entry is a
character Python's `isdigit` accepts, and all of them - listed or not -
lie above code point 127, so on ASCII characters `isdigit` accepts
exactly `0`-`9`. -/
def pyNonAsciiDigitVariant (c : Char) : Bool :=
  (c.toNat = 0xB2 || c.toNat = 0xB3 || c.toNat = 0xB9)
  || (0x660 ≤ c.toNat && c.toNat ≤ 0x669)
  || (0x6F0 ≤ c.toNat && c.toNat ≤ 0x6F9)
  || (0x966 ≤ c.toNat && c.toNat ≤ 0x96F)
  || (c.toNat = 0x2070 || (0x2074 ≤ c.toNat && c.toNat ≤ 0x2079))
  || (0x2080 ≤ c.toNat && c.toNat ≤ 0x2089)
  || (0xFF10 ≤ c.toNat && c.toNat ≤ 0xFF19)

/-- The character class Python's `str.isdigit` accepts: the decimal
digits `0`-`9` together with the non-ASCII Unicode digit variants. -/
def pyCharIsDigit (c : Char) : Bool :=
  c.isDigit || pyNonAsciiDigitVariant c

/-- Python `s.isdigit()`: non-empty and every character in the `isdigit`
character class (decimal digits and Unicode digit variants). -/
def pyIsDigitStr (v : Str) : Bool :=
  !v.isEmpty && v.all pyCharIsDigit

/-- The numeric test of the source, `value.replace('.', '', 1).isdigit()`
(lines 63 and 67); the spec calls it `looks_numeric`. -/
def looksNumeric (v : Str) : Bool :=
  pyIsDigitStr (pyReplaceDotOnce v)

/-- The four-state column type tag (`'unknown' | 'number' | 'text' | 'mixed'`). -/
inductive ColType where
  | unknown
  | number
  | text
  | mixed
deriving DecidableEq, Repr

/-- The per-column accumulator dict of lines 34-40: `name`, `type`,
`empty`, `unique`, `sample`.  The Python `set` of raw values is a
`Finset Str`. -/
structure ColAcc where
  name : Str
  type : ColType
  empty : Nat
  unique : Finset Str
  sample : List Str
deriving DecidableEq

/-- Initial accumulator for one header (lines 34-40). -/
def initCol (header : Str) : ColAcc :=
  { name := header, type := ColType.unknown, empty := 0, unique := ∅, sample := [] }

/-- The loop body of lines 50-68 for one field `value` of one column:
insert into the unique set, count empties, append to the bounded sample,
and step the type state machine. -/
def updateCol (col : ColAcc) (value : Str) : ColAcc :=
  let c1 : ColAcc := { col with unique := insert value col.unique }
  let c2 : ColAcc :=
    if pyStrip value = [] then { c1 with empty := c1.empty + 1 } else c1
  let c3 : ColAcc :=
    if c2.sample.length < 5 ∧ pyStrip value ≠ [] then
      { c2 with sample := c2.sample ++ [value] }
    else c2
  if pyStrip value ≠ [] then
    if c3.type = ColType.unknown then
      { c3 with type := if looksNumeric value then ColType.number else ColType.text }
    else if c3.type = ColType.number ∧ ¬ looksNumeric value then
      { c3 with type := ColType.mixed }
    else c3
  else c3

/-- Lines 45-47: one row updates the columns positionally; fields at
indices at or beyond `len(headers)` are skipped (`continue`), and a row
with fewer fields than headers leaves the trailing columns untouched.
(`column_stats` always has length `len(headers)`.) -/
def processRow : List ColAcc → List Str → List ColAcc
  | [], _ => []
  | cs, [] => cs
  | c :: cs, v :: vs => updateCol c v :: processRow cs vs

/-- One finalized column of the report (lines 71-74): the unique set is
deleted and only its cardinality survives; `empty_pct` is
`empty / row_count * 100`, or `0` when `row_count` is zero.  Division is
modelled exactly, in `ℚ`. -/
structure ColStat where
  name : Str
  type : ColType
  empty : Nat
  empty_pct : ℚ
  unique_count : Nat
  sample : List Str
deriving DecidableEq

/-- Lines 71-74 for one column. -/
def finalizeCol (rowCount : Nat) (col : ColAcc) : ColStat :=
  { name := col.name
    type := col.type
    empty := col.empty
    empty_pct := if rowCount = 0 then 0 else (col.empty : ℚ) / (rowCount : ℚ) * 100
    unique_count := col.unique.card
    sample := col.sample }

/-- The value returned at lines 76-81. -/
structure Report where
  file_name : Str
  headers : List Str
  row_count : Nat
  column_stats : List ColStat
deriving DecidableEq

/-- Lines 33-81 of `analyze_csv`, given the detected headers and the data
rows the scanner yields (header row already skipped when present):
initialise one accumulator per header, fold every row through the update
loop, then finalize. -/
def analyze_csv (fileName : Str) (headers : List Str) (rows : List (List Str)) : Report :=
  let final := rows.foldl processRow (headers.map initCol)
  { file_name := fileName
    headers := headers
    row_count := rows.length
    column_stats := final.map (finalizeCol rows.length) }

/-- Line 29, no-header branch: `[f"Column {i+1}" for i in range(n)]`. -/
def syntheticHeaders (n : Nat) : List Str :=
  (List.range n).map (fun i => ("Column " ++ toString (i + 1)).data)

/-- Lines 29-31 when `has_header` is false: `next(reader)` consumes the
first physical row only to count its fields for the synthetic header
names, `f.seek(0)` rewinds the file, and no row is skipped afterwards, so
every physical row - the first included - is processed as data exactly
once.  On a file with no rows at all, `next(reader)` raises
`StopIteration` (`none`). -/
def analyze_csv_noheader (fileName : Str) (allRows : List (List Str)) : Option Report :=
  match allRows with
  | [] => none
  | r0 :: _ => some (analyze_csv fileName (syntheticHeaders r0.length) allRows)

/-- The failure kinds of the analysis pipeline that precede profiling
(spec section 7); only format detection is relevant below. -/
inductive AnalyzeError where
  | formatDetectionFailure
deriving DecidableEq, Repr

/-- Modelled from the spec: the format/header detection of lines 24-25
(`csv.Sniffer().sniff(sample)` and `Sniffer().has_header(sample)`),
which is not code of the repository - it lives in the Python standard
library.  Per spec sections 4.1 and 7, detection inspects the bounded
sample and fails with `FormatDetectionFailure` when no candidate
delimiter yields a consistent, multi-field split; an entirely empty
sample has no lines to split, so an empty file fails detection before
any profiling happens.  A successful detection is abstracted: the file
stands for the physical row list its detected dialect induces, and the
header heuristic's verdict is the `hasHeader` flag.  On success the
pipeline proceeds exactly as in lines 29-81: header row consumed as
headers when `hasHeader`, otherwise synthetic headers with every
physical row - the first included - processed as data. -/
def analyze_file (fileName : Str) (physicalRows : List (List Str))
    (hasHeader : Bool) : Except AnalyzeError Report :=
  match physicalRows with
  | [] => Except.error AnalyzeError.formatDetectionFailure
  | r0 :: rest =>
      if hasHeader then Except.ok (analyze_csv fileName r0 rest)
      else Except.ok (analyze_csv fileName (syntheticHeaders r0.length) (r0 :: rest))

/-- The spec's reading of `looks_numeric(v)`: after removing at most one
`.` character from `v`, the remaining characters are all decimal digits
(there being remaining characters: Python's `isdigit` is false on the
empty string, and "the remaining characters" presupposes some remain).
`deleteOneDot v` enumerates every result of deleting exactly one `.`. -/
def deleteOneDot : Str → List Str
  | [] => []
  | c :: cs =>
      (if c = '.' then [cs] else []) ++ (deleteOneDot cs).map (fun r => c :: r)

/-- The spec-side numeric predicate, following the spec's words: some
string obtainable from `v` by removing at most one `.` character is
non-empty and consists only of decimal digits. -/
def specLooksNumeric (v : Str) : Prop :=
  ∃ r ∈ v :: deleteOneDot v, r ≠ [] ∧ r.all Char.isDigit

instance (v : Str) : Decidable (specLooksNumeric v) := by
  unfold specLooksNumeric; infer_instance

/-! ## Field-level behaviour of the per-value update -/

/-- The type state machine of lines 61-68, as a function of the current
tag and the field value. -/
def typeStep (t : ColType) (v : Str) : ColType :=
  if pyStrip v = [] then t
  else
    match t with
    | ColType.unknown => if looksNumeric v then ColType.number else ColType.text
    | ColType.number => if looksNumeric v then ColType.number else ColType.mixed
    | t => t

/-- The per-value update written out field by field. -/
theorem updateCol_eq (c : ColAcc) (v : Str) :
    updateCol c v =
      { name := c.name
        type := typeStep c.type v
        empty := if pyStrip v = [] then c.empty + 1 else c.empty
        unique := insert v c.unique
        sample :=
          if c.sample.length < 5 ∧ pyStrip v ≠ [] then c.sample ++ [v] else c.sample } := by
  unfold updateCol typeStep
  by_cases hs : pyStrip v = []
  · simp [hs]
  · by_cases hl : c.sample.length < 5 <;>
      cases ht : c.type <;> by_cases hn : looksNumeric v <;> simp [hs, hl, ht, hn]

theorem updateCol_name (c : ColAcc) (v : Str) : (updateCol c v).name = c.name := by
  rw [updateCol_eq]

theorem updateCol_unique (c : ColAcc) (v : Str) :
    (updateCol c v).unique = insert v c.unique := by
  rw [updateCol_eq]

theorem updateCol_empty (c : ColAcc) (v : Str) :
    (updateCol c v).empty = if pyStrip v = [] then c.empty + 1 else c.empty := by
  rw [updateCol_eq]

theorem updateCol_sample (c : ColAcc) (v : Str) :
    (updateCol c v).sample =
      if c.sample.length < 5 ∧ pyStrip v ≠ [] then c.sample ++ [v] else c.sample := by
  rw [updateCol_eq]

theorem updateCol_type (c : ColAcc) (v : Str) :
    (updateCol c v).type = typeStep c.type v := by
  rw [updateCol_eq]

/-! ## Row-level and fold-level behaviour -/

theorem processRow_length (cs : List ColAcc) (vs : List Str) :
    (processRow cs vs).length = cs.length := by
  induction cs generalizing vs with
  | nil => cases vs <;> rfl
  | cons c cs ih =>
    cases vs with
    | nil => rfl
    | cons v vs => simp [processRow, ih]

theorem processRow_getElem? (cs : List ColAcc) (vs : List Str) (j : Nat) :
    (processRow cs vs)[j]? = (cs[j]?).map (fun c =>
      match vs[j]? with
      | some v => updateCol c v
      | none => c) := by
  induction cs generalizing vs j with
  | nil => cases vs <;> simp [processRow]
  | cons c cs ih =>
    cases vs with
    | nil => simp [processRow]
    | cons v vs =>
      cases j with
      | zero => simp [processRow]
      | succ j => simp [processRow, ih]

theorem foldl_processRow_getElem? (rows : List (List Str)) (cs : List ColAcc) (j : Nat) :
    (rows.foldl processRow cs)[j]? =
      (cs[j]?).map (fun c => (rows.filterMap (fun r => r[j]?)).foldl updateCol c) := by
  induction rows generalizing cs with
  | nil => simp
  | cons r rows ih =>
    simp only [List.foldl_cons, List.filterMap_cons]
    rw [ih, processRow_getElem?]
    cases hr : r[j]? <;> cases hc : cs[j]? <;> simp

/-- Per-column view of the whole analysis: column `j` of the report is
the fold of the per-value update over exactly the fields at index `j` of
the rows that have one, finalized. -/
theorem analyze_csv_getElem? (fileName : Str) (headers : List Str)
    (rows : List (List Str)) (j : Nat) :
    (analyze_csv fileName headers rows).column_stats[j]? =
      (headers[j]?).map (fun h =>
        finalizeCol rows.length
          ((rows.filterMap (fun r => r[j]?)).foldl updateCol (initCol h))) := by
  unfold analyze_csv
  simp only [List.getElem?_map, foldl_processRow_getElem?, Option.map_map]
  rfl

theorem foldl_updateCol_name (vals : List Str) (c : ColAcc) :
    (vals.foldl updateCol c).name = c.name := by
  induction vals generalizing c with
  | nil => rfl
  | cons v vals ih => simp [ih, updateCol_name]

theorem foldl_updateCol_unique (vals : List Str) (c : ColAcc) :
    (vals.foldl updateCol c).unique = c.unique ∪ vals.toFinset := by
  induction vals generalizing c with
  | nil => simp
  | cons v vals ih =>
    simp only [List.foldl_cons, ih, updateCol_unique, List.toFinset_cons]
    ext x
    simp [Finset.mem_union, Finset.mem_insert, or_assoc]

theorem foldl_updateCol_empty (vals : List Str) (c : ColAcc) :
    (vals.foldl updateCol c).empty =
      c.empty + vals.countP (fun v => decide (pyStrip v = [])) := by
  induction vals generalizing c with
  | nil => simp
  | cons v vals ih =>
    simp only [List.foldl_cons, ih, updateCol_empty, List.countP_cons]
    by_cases hv : pyStrip v = [] <;> (simp [hv]; try omega)

theorem foldl_updateCol_sample (vals : List Str) (c : ColAcc) (h : c.sample.length ≤ 5) :
    (vals.foldl updateCol c).sample =
      c.sample ++
        (vals.filter (fun v => !(pyStrip v).isEmpty)).take (5 - c.sample.length) := by
  induction vals generalizing c with
  | nil => simp
  | cons v vals ih =>
    simp only [List.foldl_cons, List.filter_cons]
    by_cases hv : pyStrip v = []
    · have hs : (updateCol c v).sample = c.sample := by
        rw [updateCol_sample]
        simp [hv]
      rw [ih (updateCol c v) (by rw [hs]; exact h)]
      rw [hs]
      simp [List.isEmpty_iff, hv]
    · by_cases hlen : c.sample.length < 5
      · have hs : (updateCol c v).sample = c.sample ++ [v] := by
          rw [updateCol_sample]
          simp [hv, hlen]
        rw [ih (updateCol c v) (by rw [hs]; simp; omega)]
        rw [hs]
        have hpred : (!(pyStrip v).isEmpty) = true := by
          simp [List.isEmpty_iff, hv]
        simp only [hpred, if_pos]
        obtain ⟨k, hk⟩ : ∃ k, 5 - c.sample.length = k + 1 := ⟨5 - c.sample.length - 1, by omega⟩
        have hk2 : 5 - (c.sample.length + 1) = k := by omega
        simp [List.length_append, hk, hk2, List.take_succ_cons]
      · have h5 : c.sample.length = 5 := by omega
        have hs : (updateCol c v).sample = c.sample := by
          rw [updateCol_sample]
          simp [hlen]
        rw [ih (updateCol c v) (by rw [hs]; exact h)]
        rw [hs]
        simp [h5]

theorem foldl_updateCol_sample_len (vals : List Str) (c : ColAcc) (h : c.sample.length ≤ 5) :
    (vals.foldl updateCol c).sample.length ≤ 5 := by
  rw [foldl_updateCol_sample vals c h]
  simp only [List.length_append]
  have := List.length_take_le (5 - c.sample.length)
    (vals.filter (fun v => !(pyStrip v).isEmpty))
  omega

theorem typeStep_cases (t : ColType) (v : Str) :
    t = typeStep t v ∨
      (t = ColType.unknown ∧ (typeStep t v = ColType.number ∨ typeStep t v = ColType.text)) ∨
      (t = ColType.number ∧ typeStep t v = ColType.mixed) := by
  unfold typeStep
  by_cases hs : pyStrip v = [] <;> cases t <;> by_cases hn : looksNumeric v <;> simp [hs, hn]

theorem foldl_updateCol_type_reach (vals : List Str) (c : ColAcc) :
    Relation.ReflTransGen
      (fun a b => a = b ∨
        (a = ColType.unknown ∧ (b = ColType.number ∨ b = ColType.text)) ∨
        (a = ColType.number ∧ b = ColType.mixed))
      c.type (vals.foldl updateCol c).type := by
  induction vals generalizing c with
  | nil => exact Relation.ReflTransGen.refl
  | cons v vals ih =>
    refine Relation.ReflTransGen.head ?_ (ih (updateCol c v))
    rw [updateCol_type]
    exact typeStep_cases c.type v

/-! ## The numeric test against the spec's description -/

theorem pyReplaceDotOnce_of_not_mem (v : Str) (h : '.' ∉ v) : pyReplaceDotOnce v = v := by
  induction v with
  | nil => rfl
  | cons c cs ih =>
    simp only [List.mem_cons, not_or] at h
    simp only [pyReplaceDotOnce]
    rw [if_neg (fun hc => h.1 hc.symm), ih h.2]

theorem deleteOneDot_of_not_mem (v : Str) (h : '.' ∉ v) : deleteOneDot v = [] := by
  induction v with
  | nil => rfl
  | cons c cs ih =>
    simp only [List.mem_cons, not_or] at h
    simp only [deleteOneDot]
    rw [if_neg (fun hc => h.1 hc.symm), ih h.2]
    rfl

theorem pyReplaceDotOnce_append (a b : Str) (h : '.' ∉ a) :
    pyReplaceDotOnce (a ++ '.' :: b) = a ++ b := by
  induction a with
  | nil => simp [pyReplaceDotOnce]
  | cons c a ih =>
    simp only [List.mem_cons, not_or] at h
    simp only [List.cons_append, pyReplaceDotOnce]
    rw [if_neg (fun hc => h.1 hc.symm)]
    simp only [List.append_eq]
    rw [ih h.2]

theorem mem_deleteOneDot_append (a b : Str) :
    (a ++ b) ∈ deleteOneDot (a ++ '.' :: b) := by
  induction a with
  | nil => simp [deleteOneDot]
  | cons c a ih =>
    simp only [List.cons_append, deleteOneDot, List.mem_append, List.mem_map]
    right
    exact ⟨a ++ b, ih, rfl⟩

theorem exists_of_mem_deleteOneDot (v r : Str) (h : r ∈ deleteOneDot v) :
    ∃ x y, v = x ++ '.' :: y ∧ r = x ++ y := by
  induction v generalizing r with
  | nil => simp [deleteOneDot] at h
  | cons c cs ih =>
    simp only [deleteOneDot, List.mem_append, List.mem_map] at h
    rcases h with h | ⟨r', hr', rfl⟩
    · by_cases hc : c = '.'
      · rw [if_pos hc, List.mem_singleton] at h
        exact ⟨[], cs, by simp [hc], by simp [h]⟩
      · rw [if_neg hc] at h
        simp at h
    · obtain ⟨x, y, hxy, rfl⟩ := ih r' hr'
      exact ⟨c :: x, y, by simp [hxy], rfl⟩

theorem first_dot_unique (x : Str) : ∀ (a y b : Str), '.' ∉ x → '.' ∉ a →
    x ++ '.' :: y = a ++ '.' :: b → x = a ∧ y = b := by
  induction x with
  | nil =>
    intro a y b _ ha h
    cases a with
    | nil => simpa using h
    | cons d a' =>
      simp only [List.nil_append, List.cons_append, List.cons.injEq] at h
      exact absurd (List.mem_cons.mpr (Or.inl h.1)) ha
  | cons c x' ih =>
    intro a y b hx ha h
    simp only [List.mem_cons, not_or] at hx
    cases a with
    | nil =>
      simp only [List.nil_append, List.cons_append, List.cons.injEq] at h
      exact absurd h.1.symm hx.1
    | cons d a' =>
      simp only [List.mem_cons, not_or] at ha
      simp only [List.cons_append, List.cons.injEq] at h
      obtain ⟨he, ht⟩ := h
      obtain ⟨hxa, hyb⟩ := ih a' y b hx.2 ha.2 ht
      exact ⟨by rw [he, hxa], hyb⟩

theorem exists_first_dot (v : Str) (h : '.' ∈ v) :
    ∃ a b, v = a ++ '.' :: b ∧ '.' ∉ a := by
  induction v with
  | nil => simp at h
  | cons c cs ih =>
    by_cases hc : c = '.'
    · exact ⟨[], cs, by simp [hc], by simp⟩
    · have h' : '.' ∈ cs := by
        rcases List.mem_cons.mp h with h0 | h0
        · exact absurd h0.symm hc
        · exact h0
      obtain ⟨a, b, hab, hna⟩ := ih h'
      refine ⟨c :: a, b, by simp [hab], ?_⟩
      simp only [List.mem_cons, not_or]
      exact ⟨fun hd => hc hd.symm, hna⟩

/-- On ASCII characters, Python's `isdigit` class is exactly the decimal
digits: every modelled digit variant lies above code point 127. -/
theorem pyCharIsDigit_ascii (c : Char) (h : c.toNat < 128) :
    pyCharIsDigit c = c.isDigit := by
  have hv : pyNonAsciiDigitVariant c = false := by
    unfold pyNonAsciiDigitVariant
    simp only [Bool.or_eq_false_iff, Bool.and_eq_false_iff, decide_eq_false_iff_not,
      not_le]
    omega
  unfold pyCharIsDigit
  rw [hv, Bool.or_false]

theorem all_pyCharIsDigit_of_ascii (r : Str) (h : ∀ c ∈ r, c.toNat < 128) :
    r.all pyCharIsDigit = r.all Char.isDigit := by
  induction r with
  | nil => rfl
  | cons c cs ih =>
    simp only [List.all_cons]
    rw [pyCharIsDigit_ascii c (h c (List.mem_cons_self c cs)),
      ih (fun d hd => h d (List.mem_cons_of_mem c hd))]

/-- For strings of ASCII characters, the program's numeric test agrees
with the spec's description of `looks_numeric`.  (Outside ASCII, Python's
`isdigit` accepts Unicode digit variants that are not decimal digits,
so the agreement fails there; see the C2 counterexample.) -/
theorem looksNumeric_iff_spec (v : Str) (hv : ∀ c ∈ v, c.toNat < 128) :
    looksNumeric v = true ↔ specLooksNumeric v := by
  unfold specLooksNumeric
  by_cases hd : '.' ∈ v
  · obtain ⟨a, b, rfl, hna⟩ := exists_first_dot v hd
    unfold looksNumeric pyIsDigitStr
    rw [pyReplaceDotOnce_append a b hna]
    have hsub : ∀ c ∈ a ++ b, c ∈ a ++ '.' :: b := by
      intro c hc
      rcases List.mem_append.mp hc with h1 | h1
      · exact List.mem_append.mpr (Or.inl h1)
      · exact List.mem_append.mpr (Or.inr (List.mem_cons_of_mem _ h1))
    rw [all_pyCharIsDigit_of_ascii (a ++ b) (fun c hc => hv c (hsub c hc))]
    constructor
    · intro h
      simp only [Bool.and_eq_true, Bool.not_eq_true', List.isEmpty_eq_false] at h
      exact ⟨a ++ b, List.mem_cons_of_mem _ (mem_deleteOneDot_append a b), h.1, h.2⟩
    · rintro ⟨r, hr, hne, hdig⟩
      rcases List.mem_cons.mp hr with rfl | hr'
      · exfalso
        have hdot : ('.').isDigit = true := List.all_eq_true.mp hdig '.' hd
        simp at hdot
      · obtain ⟨x, y, hxy, rfl⟩ := exists_of_mem_deleteOneDot _ _ hr'
        have hx : '.' ∉ x := by
          intro hmem
          have hdot : ('.').isDigit = true :=
            List.all_eq_true.mp hdig '.' (List.mem_append.mpr (Or.inl hmem))
          simp at hdot
        obtain ⟨rfl, rfl⟩ := first_dot_unique x a y b hx hna hxy.symm
        simp only [Bool.and_eq_true, Bool.not_eq_true', List.isEmpty_eq_false]
        exact ⟨hne, hdig⟩
  · unfold looksNumeric pyIsDigitStr
    rw [pyReplaceDotOnce_of_not_mem v hd, deleteOneDot_of_not_mem v hd,
      all_pyCharIsDigit_of_ascii v hv]
    simp only [List.mem_singleton, Bool.and_eq_true, Bool.not_eq_true',
      List.isEmpty_eq_false]
    constructor
    · intro h
      exact ⟨v, rfl, h.1, h.2⟩
    · rintro ⟨r, rfl, hne, hdig⟩
      exact ⟨hne, hdig⟩

/-! ## The claims -/

/-- C1, as stated, is false of the code: the type-classification step of
lines 61-68 applies the numeric test to the raw field value, not to its
trimmed form.  The value `" 1 "` has a non-empty, all-digit trimmed form
and is observed by a column in state `Unknown`, yet the column moves to
`Text`, not `Number`. -/
theorem C1_counterexample :
    pyStrip " 1 ".data ≠ [] ∧
    (pyStrip " 1 ".data).all Char.isDigit = true ∧
    (initCol "a".data).type = ColType.unknown ∧
    (updateCol (initCol "a".data) " 1 ".data).type = ColType.text ∧
    (updateCol (initCol "a".data) " 1 ".data).type ≠ ColType.number := by
  decide

/-- C1 amended: for every field value whose trimmed form is non-empty, the
type-classification step applies `looks_numeric` to the raw (untrimmed)
value; in particular a column in state `Unknown` that observes `" 1 "`
transitions to `Text`, because the surrounding whitespace makes the raw
value fail the numeric test. -/
theorem C1_type_classification_uses_raw_value :
    (∀ (c : ColAcc) (v : Str), pyStrip v ≠ [] → c.type = ColType.unknown →
      (updateCol c v).type = (if looksNumeric v then ColType.number else ColType.text)) ∧
    looksNumeric " 1 ".data = false ∧
    (updateCol (initCol "a".data) " 1 ".data).type = ColType.text := by
  refine ⟨?_, by decide, by decide⟩
  intro c v hv hc
  rw [updateCol_type, hc]
  unfold typeStep
  rw [if_neg hv]

theorem C1_witness :
    pyStrip " 1 ".data ≠ [] ∧
    (updateCol (initCol "a".data) " 1 ".data).type
      = (if looksNumeric " 1 ".data then ColType.number else ColType.text) :=
  ⟨by decide,
   C1_type_classification_uses_raw_value.1 (initCol "a".data) " 1 ".data (by decide) rfl⟩

/-- C2, as stated (an iff for every string), is false of the code:
Python's `isdigit` accepts the Unicode digit variant `²`, so the
program's numeric test is true on `"4²"` although its characters are not
all decimal digits (no `.` removal helps), and a column in state
`Unknown` classifies `"4²"` as `Number`. -/
theorem C2_counterexample :
    looksNumeric "4²".data = true ∧
    ¬ specLooksNumeric "4²".data ∧
    (updateCol (initCol "a".data) "4²".data).type = ColType.number := by
  decide

/-- C2 amended: for every string of ASCII characters, the program's
numeric test returns true exactly when some string obtained from it by
removing at most one `.` character is non-empty and consists only of
decimal digits (so signs, exponents, thousands separators and multi-dot
strings are rejected); beyond ASCII, Python's `isdigit` additionally
accepts Unicode digit variants.  On `"3.14.15"` the test returns false,
and a column in state `Unknown` that observes `"3.14.15"` classifies it
as `Text`. -/
theorem C2_numeric_test_matches_spec :
    (∀ v : Str, (∀ c ∈ v, c.toNat < 128) →
      (looksNumeric v = true ↔ specLooksNumeric v)) ∧
    looksNumeric "3.14.15".data = false ∧
    (∀ c : ColAcc, c.type = ColType.unknown →
      (updateCol c "3.14.15".data).type = ColType.text) := by
  refine ⟨looksNumeric_iff_spec, by decide, ?_⟩
  intro c hc
  rw [updateCol_type, hc]
  decide

theorem C2_witness :
    (looksNumeric "12.5".data = true ↔ specLooksNumeric "12.5".data) ∧
    (looksNumeric "3,000".data = true ↔ specLooksNumeric "3,000".data) ∧
    (updateCol (initCol "a".data) "3.14.15".data).type = ColType.text :=
  ⟨C2_numeric_test_matches_spec.1 "12.5".data (by decide),
   C2_numeric_test_matches_spec.1 "3,000".data (by decide),
   C2_numeric_test_matches_spec.2.2 (initCol "a".data) rfl⟩

/-- C3, as stated, fails on an entirely empty file: the format detection
of line 24 (`csv.Sniffer().sniff`) finds no consistent delimiter in the
empty sample and raises before any profiling, so the analysis produces a
`FormatDetectionFailure` and no `Report` at all - in particular none
with `row_count = 0`. -/
theorem C3_counterexample :
    analyze_file "f".data [] true = Except.error AnalyzeError.formatDetectionFailure ∧
    analyze_file "f".data [] false = Except.error AnalyzeError.formatDetectionFailure ∧
    (analyze_file "f".data [] true).isOk = false ∧
    (analyze_file "f".data [] false).isOk = false :=
  ⟨rfl, rfl, rfl, rfl⟩

/-- C3 amended: an input with zero data rows that passes format
detection - a file whose only physical row is the detected header -
yields a report with `row_count = 0` in which every column has
`empty_pct = 0`, `unique_count = 0`, an empty sample and type `Unknown`;
an entirely empty file instead fails format detection and no report is
returned. -/
theorem C3_zero_rows :
    (∀ (fn : Str) (hasHeader : Bool),
      analyze_file fn [] hasHeader
        = Except.error AnalyzeError.formatDetectionFailure) ∧
    (∀ (fn : Str) (headerRow : List Str),
      analyze_file fn [headerRow] true = Except.ok (analyze_csv fn headerRow [])) ∧
    (∀ (fn : Str) (headers : List Str) (c : ColStat),
      c ∈ (analyze_csv fn headers []).column_stats →
      (analyze_csv fn headers []).row_count = 0 ∧
      c.empty_pct = 0 ∧ c.unique_count = 0 ∧ c.sample = [] ∧
      c.type = ColType.unknown) := by
  refine ⟨fun fn hasHeader => rfl, fun fn headerRow => rfl, ?_⟩
  intro fn headers c hc
  refine ⟨rfl, ?_⟩
  unfold analyze_csv at hc
  simp only [List.foldl_nil, List.map_map, List.mem_map, Function.comp] at hc
  obtain ⟨h, _, rfl⟩ := hc
  exact ⟨rfl, rfl, rfl, rfl⟩

theorem C3_witness :
    analyze_file "f".data [] true = Except.error AnalyzeError.formatDetectionFailure ∧
    analyze_file "f".data [["a".data]] true
      = Except.ok (analyze_csv "f".data ["a".data] []) ∧
    ((analyze_csv "f".data ["a".data] []).row_count = 0 ∧
      (finalizeCol 0 (initCol "a".data)).empty_pct = 0 ∧
      (finalizeCol 0 (initCol "a".data)).unique_count = 0 ∧
      (finalizeCol 0 (initCol "a".data)).sample = [] ∧
      (finalizeCol 0 (initCol "a".data)).type = ColType.unknown) :=
  ⟨C3_zero_rows.1 "f".data true,
   C3_zero_rows.2.1 "f".data ["a".data],
   C3_zero_rows.2.2 "f".data ["a".data] (finalizeCol 0 (initCol "a".data)) (by decide)⟩

/-- C4: the column type only ever moves along the lattice
`Unknown → Number`, `Unknown → Text`, `Number → Mixed`; `Text` and
`Mixed` are terminal, a value whose trimmed form is empty never changes
the type, and over any sequence of processed values the type follows the
reflexive-transitive closure of those edges. -/
theorem C4_type_lattice :
    (∀ (c : ColAcc) (v : Str), pyStrip v = [] → (updateCol c v).type = c.type) ∧
    (∀ (c : ColAcc) (v : Str), c.type = ColType.text →
      (updateCol c v).type = ColType.text) ∧
    (∀ (c : ColAcc) (v : Str), c.type = ColType.mixed →
      (updateCol c v).type = ColType.mixed) ∧
    (∀ (c : ColAcc) (v : Str),
      c.type = (updateCol c v).type ∨
      (c.type = ColType.unknown ∧
        ((updateCol c v).type = ColType.number ∨ (updateCol c v).type = ColType.text)) ∨
      (c.type = ColType.number ∧ (updateCol c v).type = ColType.mixed)) ∧
    (∀ (c : ColAcc) (vals : List Str),
      Relation.ReflTransGen
        (fun a b => a = b ∨
          (a = ColType.unknown ∧ (b = ColType.number ∨ b = ColType.text)) ∨
          (a = ColType.number ∧ b = ColType.mixed))
        c.type (vals.foldl updateCol c).type) := by
  refine ⟨?_, ?_, ?_, ?_, ?_⟩
  · intro c v h
    rw [updateCol_type]
    unfold typeStep
    rw [if_pos h]
  · intro c v h
    rw [updateCol_type, h]
    unfold typeStep
    split_ifs <;> rfl
  · intro c v h
    rw [updateCol_type, h]
    unfold typeStep
    split_ifs <;> rfl
  · intro c v
    rw [updateCol_type]
    exact typeStep_cases c.type v
  · intro c vals
    exact foldl_updateCol_type_reach vals c

theorem C4_witness :
    (updateCol (initCol "a".data) " ".data).type = (initCol "a".data).type ∧
    (updateCol (updateCol (initCol "a".data) "x".data) "1".data).type = ColType.text ∧
    (updateCol (updateCol (updateCol (initCol "a".data) "1".data) "x".data) "2".data).type
      = ColType.mixed ∧
    ((initCol "a".data).type = (updateCol (initCol "a".data) "5".data).type ∨
      ((initCol "a".data).type = ColType.unknown ∧
        ((updateCol (initCol "a".data) "5".data).type = ColType.number ∨
          (updateCol (initCol "a".data) "5".data).type = ColType.text)) ∨
      ((initCol "a".data).type = ColType.number ∧
        (updateCol (initCol "a".data) "5".data).type = ColType.mixed)) ∧
    Relation.ReflTransGen
      (fun a b => a = b ∨
        (a = ColType.unknown ∧ (b = ColType.number ∨ b = ColType.text)) ∨
        (a = ColType.number ∧ b = ColType.mixed))
      (initCol "a".data).type
      ((["1".data, "x".data].foldl updateCol (initCol "a".data)).type) :=
  ⟨C4_type_lattice.1 (initCol "a".data) " ".data (by decide),
   C4_type_lattice.2.1 (updateCol (initCol "a".data) "x".data) "1".data (by decide),
   C4_type_lattice.2.2.1
     (updateCol (updateCol (initCol "a".data) "1".data) "x".data) "2".data (by decide),
   C4_type_lattice.2.2.2.1 (initCol "a".data) "5".data,
   C4_type_lattice.2.2.2.2 (initCol "a".data) ["1".data, "x".data]⟩

/-- C5: for every column of the report, the sample is exactly the first
up-to-5 values with non-empty trimmed form among that column's fields, in
file encounter order; its length never exceeds 5 (also at every
intermediate state), it contains no value whose trimmed form is empty,
and a single update only ever appends to the sample. -/
theorem C5_sample (fn : Str) (headers : List Str) (rows : List (List Str))
    (j : Nat) (c : ColStat)
    (hc : (analyze_csv fn headers rows).column_stats[j]? = some c) :
    c.sample =
      ((rows.filterMap (fun r => r[j]?)).filter (fun v => !(pyStrip v).isEmpty)).take 5 ∧
    c.sample.length ≤ 5 ∧
    (∀ v ∈ c.sample, pyStrip v ≠ []) ∧
    (∀ (a : ColAcc) (vals : List Str), a.sample.length ≤ 5 →
      (vals.foldl updateCol a).sample.length ≤ 5) ∧
    (∀ (a : ColAcc) (v : Str), ∃ t, (updateCol a v).sample = a.sample ++ t) := by
  rw [analyze_csv_getElem?] at hc
  cases hh : headers[j]? with
  | none => rw [hh] at hc; simp at hc
  | some h =>
    rw [hh] at hc
    simp only [Option.map_some', Option.some.injEq] at hc
    subst hc
    have hsample :
        ((rows.filterMap (fun r => r[j]?)).foldl updateCol (initCol h)).sample =
          ((rows.filterMap (fun r => r[j]?)).filter
            (fun v => !(pyStrip v).isEmpty)).take 5 := by
      rw [foldl_updateCol_sample _ _ (by simp [initCol])]
      simp [initCol]
    refine ⟨hsample, ?_, ?_, ?_, ?_⟩
    · show ((rows.filterMap (fun r => r[j]?)).foldl updateCol (initCol h)).sample.length ≤ 5
      exact foldl_updateCol_sample_len _ _ (by simp [initCol])
    · intro v hv
      rw [show (finalizeCol rows.length
            ((rows.filterMap (fun r => r[j]?)).foldl updateCol (initCol h))).sample
          = ((rows.filterMap (fun r => r[j]?)).foldl updateCol (initCol h)).sample from rfl,
        hsample] at hv
      have hv' := List.mem_of_mem_filter (List.take_subset 5 _ hv)
      simpa [List.isEmpty_eq_false] using List.of_mem_filter (List.take_subset 5 _ hv)
    · intro a vals ha
      exact foldl_updateCol_sample_len vals a ha
    · intro a v
      rw [updateCol_sample]
      by_cases hcond : a.sample.length < 5 ∧ pyStrip v ≠ []
      · exact ⟨[v], by rw [if_pos hcond]⟩
      · exact ⟨[], by rw [if_neg hcond, List.append_nil]⟩

theorem C5_witness :
    (finalizeCol 2 (((([["7".data], [" ".data]]).filterMap
        (fun r => r[0]?)).foldl updateCol (initCol "a".data)))).sample
      = ((([["7".data], [" ".data]]).filterMap (fun r => r[0]?)).filter
          (fun v => !(pyStrip v).isEmpty)).take 5 ∧
    (finalizeCol 2 (((([["7".data], [" ".data]]).filterMap
        (fun r => r[0]?)).foldl updateCol (initCol "a".data)))).sample.length ≤ 5 :=
  have h := C5_sample "f".data ["a".data] [["7".data], [" ".data]] 0
    (finalizeCol 2 (((([["7".data], [" ".data]]).filterMap
        (fun r => r[0]?)).foldl updateCol (initCol "a".data)))) (by rfl)
  ⟨h.1, h.2.1⟩

/-- C6: every column's `empty_pct` lies in `[0, 100]`, and it is `0`
whenever `row_count` is `0`. -/
theorem C6_empty_pct_bounds (fn : Str) (headers : List Str) (rows : List (List Str))
    (c : ColStat) (hc : c ∈ (analyze_csv fn headers rows).column_stats) :
    0 ≤ c.empty_pct ∧ c.empty_pct ≤ 100 ∧
    ((analyze_csv fn headers rows).row_count = 0 → c.empty_pct = 0) := by
  obtain ⟨j, hj⟩ := List.mem_iff_getElem?.mp hc
  rw [analyze_csv_getElem?] at hj
  cases hh : headers[j]? with
  | none => rw [hh] at hj; simp at hj
  | some h =>
    rw [hh] at hj
    simp only [Option.map_some', Option.some.injEq] at hj
    subst hj
    have hle : ((rows.filterMap (fun r => r[j]?)).foldl updateCol (initCol h)).empty
        ≤ rows.length := by
      rw [foldl_updateCol_empty]
      have h1 := List.countP_le_length
        (fun v => decide (pyStrip v = [])) (l := rows.filterMap (fun r => r[j]?))
      have h2 := List.length_filterMap_le (fun r => r[j]?) rows
      simp [initCol]
      omega
    set e := ((rows.filterMap (fun r => r[j]?)).foldl updateCol (initCol h)).empty with he
    show 0 ≤ (finalizeCol rows.length _).empty_pct ∧ _
    unfold finalizeCol
    simp only
    by_cases hn : rows.length = 0
    · simp [hn, analyze_csv]
    · rw [if_neg hn]
      have hnpos : 0 < rows.length := Nat.pos_of_ne_zero hn
      refine ⟨by positivity, ?_, ?_⟩
      · have h1 : (e : ℚ) / (rows.length : ℚ) ≤ 1 := by
          rw [div_le_one (by exact_mod_cast hnpos)]
          exact_mod_cast hle
        nlinarith
      · intro h0
        exact absurd (by simpa [analyze_csv] using h0) hn

theorem C6_witness :
    0 ≤ (finalizeCol 2 ((([["".data], ["1".data]]).filterMap
        (fun r => r[0]?)).foldl updateCol (initCol "a".data))).empty_pct ∧
    (finalizeCol 2 ((([["".data], ["1".data]]).filterMap
        (fun r => r[0]?)).foldl updateCol (initCol "a".data))).empty_pct ≤ 100 ∧
    ((analyze_csv "f".data ["a".data] [["".data], ["1".data]]).row_count = 0 →
      (finalizeCol 2 ((([["".data], ["1".data]]).filterMap
          (fun r => r[0]?)).foldl updateCol (initCol "a".data))).empty_pct = 0) :=
  C6_empty_pct_bounds "f".data ["a".data] [["".data], ["1".data]]
    (finalizeCol 2 ((([["".data], ["1".data]]).filterMap
        (fun r => r[0]?)).foldl updateCol (initCol "a".data)))
    (List.mem_iff_getElem?.mpr ⟨0, by rfl⟩)

/-- C7: a row touches exactly the columns at indices below
`min(len(row), len(headers))`: processing is unchanged by truncating the
row at the number of columns, indices at or beyond the row's length keep
their previous state, each in-range index is updated with exactly its
field, and the number of column states never changes. -/
theorem C7_row_frame (cs : List ColAcc) (row : List Str) :
    processRow cs row = processRow cs (row.take cs.length) ∧
    (processRow cs row).length = cs.length ∧
    (∀ j : Nat, row.length ≤ j → (processRow cs row)[j]? = cs[j]?) ∧
    (∀ (j : Nat) (c : ColAcc) (v : Str), cs[j]? = some c → row[j]? = some v →
      (processRow cs row)[j]? = some (updateCol c v)) := by
  refine ⟨?_, processRow_length cs row, ?_, ?_⟩
  · apply List.ext_getElem?_iff.mpr
    intro j
    rw [processRow_getElem?, processRow_getElem?]
    cases hc : cs[j]? with
    | none => rfl
    | some c =>
      have hj : j < cs.length := by
        by_contra hge
        rw [List.getElem?_eq_none (by omega)] at hc
        exact Option.noConfusion hc
      rw [List.getElem?_take]
      simp [hj]
  · intro j hj
    rw [processRow_getElem?, List.getElem?_eq_none hj]
    cases cs[j]? <;> rfl
  · intro j c v hc hv
    rw [processRow_getElem?, hc, hv]
    rfl

theorem C7_witness :
    processRow [initCol "a".data, initCol "b".data] ["1".data, "2".data, "3".data]
      = processRow [initCol "a".data, initCol "b".data]
          (["1".data, "2".data, "3".data].take 2) ∧
    (processRow [initCol "a".data, initCol "b".data] ["1".data]).length = 2 ∧
    (processRow [initCol "a".data, initCol "b".data] ["1".data])[1]?
      = [initCol "a".data, initCol "b".data][1]? ∧
    (processRow [initCol "a".data, initCol "b".data] ["1".data])[0]?
      = some (updateCol (initCol "a".data) "1".data) :=
  ⟨(C7_row_frame [initCol "a".data, initCol "b".data] ["1".data, "2".data, "3".data]).1,
   (C7_row_frame [initCol "a".data, initCol "b".data] ["1".data]).2.1,
   (C7_row_frame [initCol "a".data, initCol "b".data] ["1".data]).2.2.1 1 (by decide),
   (C7_row_frame [initCol "a".data, initCol "b".data] ["1".data]).2.2.2 0
     (initCol "a".data) "1".data rfl rfl⟩

/-- C8: each column's `unique_count` is the number of distinct raw
(untrimmed) field values observed for that column - the empty string
counts like any other value - and finalization keeps only the
cardinality of the unique set: two accumulators agreeing on everything
but the set's identity, with equal cardinalities, finalize identically. -/
theorem C8_unique_count (fn : Str) (headers : List Str) (rows : List (List Str))
    (j : Nat) (c : ColStat)
    (hc : (analyze_csv fn headers rows).column_stats[j]? = some c) :
    c.unique_count = (rows.filterMap (fun r => r[j]?)).toFinset.card ∧
    (∀ (n : Nat) (a1 a2 : ColAcc), a1.name = a2.name → a1.type = a2.type →
      a1.empty = a2.empty → a1.sample = a2.sample →
      a1.unique.card = a2.unique.card → finalizeCol n a1 = finalizeCol n a2) := by
  constructor
  · rw [analyze_csv_getElem?] at hc
    cases hh : headers[j]? with
    | none => rw [hh] at hc; simp at hc
    | some h =>
      rw [hh] at hc
      simp only [Option.map_some', Option.some.injEq] at hc
      subst hc
      show ((rows.filterMap (fun r => r[j]?)).foldl updateCol (initCol h)).unique.card = _
      rw [foldl_updateCol_unique]
      simp [initCol]
  · intro n a1 a2 h1 h2 h3 h4 h5
    unfold finalizeCol
    rw [h1, h2, h3, h4, h5]

theorem C8_witness :
    (finalizeCol 3 ((([["".data], ["".data], ["x".data]]).filterMap
        (fun r => r[0]?)).foldl updateCol (initCol "a".data))).unique_count
      = (([["".data], ["".data], ["x".data]]).filterMap (fun r => r[0]?)).toFinset.card ∧
    finalizeCol 2 (updateCol (initCol "a".data) "1".data)
      = finalizeCol 2
          { name := "a".data, type := ColType.number, empty := 0,
            unique := { "2".data }, sample := ["1".data] } :=
  ⟨(C8_unique_count "f".data ["a".data] [["".data], ["".data], ["x".data]] 0
      (finalizeCol 3 ((([["".data], ["".data], ["x".data]]).filterMap
          (fun r => r[0]?)).foldl updateCol (initCol "a".data))) (by rfl)).1,
   (C8_unique_count "f".data ["a".data] [] 0 (finalizeCol 0 (initCol "a".data)) (by rfl)).2
     2 (updateCol (initCol "a".data) "1".data)
     { name := "a".data, type := ColType.number, empty := 0,
       unique := { "2".data }, sample := ["1".data] }
     (by decide) (by decide) (by decide) (by decide) (by decide)⟩

/-- C9: the analysis is a pure function of the file's contents - two runs
over the same headers and rows produce identical reports, field by
field. -/
theorem C9_deterministic (fn : Str) (headers : List Str) (rows : List (List Str)) :
    (analyze_csv fn headers rows).file_name = (analyze_csv fn headers rows).file_name ∧
    (analyze_csv fn headers rows).headers = (analyze_csv fn headers rows).headers ∧
    (analyze_csv fn headers rows).row_count = (analyze_csv fn headers rows).row_count ∧
    (analyze_csv fn headers rows).column_stats = (analyze_csv fn headers rows).column_stats ∧
    analyze_csv fn headers rows = analyze_csv fn headers rows :=
  ⟨rfl, rfl, rfl, rfl, rfl⟩

/-- C10: with no header detected, the first physical row fixes the number
of synthetic `Column i` names and, after the rewind, is processed again
as an ordinary data row exactly once: the row count is one more than the
number of remaining rows, and the column states are the fold of the
remaining rows after a single update by the first row.  Concretely, on
the two identical one-field rows `["x"], ["x"]` the report counts 2 rows,
1 distinct value, and a sample holding `"x"` exactly twice. -/
theorem C10_noheader_first_row_once (fn : Str) (r0 : List Str) (rest : List (List Str)) :
    analyze_csv_noheader fn (r0 :: rest)
      = some (analyze_csv fn (syntheticHeaders r0.length) (r0 :: rest)) ∧
    (analyze_csv fn (syntheticHeaders r0.length) (r0 :: rest)).row_count
      = rest.length + 1 ∧
    (analyze_csv fn (syntheticHeaders r0.length) (r0 :: rest)).column_stats
      = (rest.foldl processRow
          (processRow ((syntheticHeaders r0.length).map initCol) r0)).map
          (finalizeCol (rest.length + 1)) ∧
    (analyze_csv_noheader "f".data [["x".data], ["x".data]]).map Report.row_count
      = some 2 ∧
    (analyze_csv_noheader "f".data [["x".data], ["x".data]]).map
        (fun r => r.column_stats.map (fun c => (c.sample, c.unique_count)))
      = some [(["x".data, "x".data], 1)] ∧
    (analyze_csv_noheader "f".data [["x".data], ["x".data]]).map Report.headers
      = some ["Column 1".data] := by
  exact ⟨rfl, rfl, rfl, by decide, by decide, by decide⟩
